import Mathlib

/-!
Verification of the AuguPlatform multiplayer client (`src/client.py`):
message framing (`send_msg`/`recv_msg`/`recv_all`), the connection's
inbound-message dispatcher (`ServerConnection.listen_server`), the outbound
position throttler (`ServerConnection.send_position`), and the per-frame
movement/collision simulator in `game_screen`.

Bytes are modelled as natural numbers below 256; a TCP stream is a list of
non-empty packets, the end of the list being stream closure (`sock.recv`
returns an empty packet exactly when the list is exhausted).  Python floats
are modelled as rationals; Python `int()` truncation as `pyInt`.
-/

namespace Augu

/-- One byte: a natural number (< 256 in well-formed data). -/
abbrev Byte := Nat

/-- A socket's inbound byte stream: the packets that successive `recv` calls
will deliver.  Packets are non-empty; exhausting the list models stream
closure (every further `recv` yields the empty packet, as a closed TCP
socket yields `b""`). -/
abbrev Stream' := List (List Byte)

/-- `sock.recv n`: deliver at most `n` bytes from the head packet; a packet
longer than `n` is split and its remainder pushed back.  On a closed
(exhausted) stream the result is the empty packet. -/
def sockRecv (n : Nat) : Stream' → List Byte × Stream'
  | [] => ([], [])
  | c :: rest => if c.length ≤ n then (c, rest) else (c.take n, c.drop n :: rest)

/-- `struct.pack('!I', n)`: 4-byte big-endian encoding of `n` (defined for
`n < 2^32`; larger values are reduced mod `2^32`, where the Python original
raises instead). -/
def packU32 (n : Nat) : List Byte :=
  [n / 2 ^ 24 % 256, n / 2 ^ 16 % 256, n / 2 ^ 8 % 256, n % 256]

/-- `struct.unpack('!I', b)[0]` for a 4-byte big-endian buffer. -/
def unpackU32 (b : List Byte) : Nat :=
  match b with
  | [b0, b1, b2, b3] => b0 * 2 ^ 24 + b1 * 2 ^ 16 + b2 * 2 ^ 8 + b3
  | _ => 0

/-- `send_msg`, at the byte level: the frame put on the wire for a message
whose serialized payload is `payload` — 4-byte big-endian length prefix
followed by the payload. -/
def send_msg (payload : List Byte) : List Byte :=
  packU32 payload.length ++ payload

/-- `recv_all(sock, n)`: read exactly `n` bytes, looping over `recv`;
returns `none` if the stream closes first (an empty packet arrives), and
the remaining stream either way. -/
def recv_all : Nat → Stream' → Option (List Byte) × Stream'
  | 0, s => (some [], s)
  | n + 1, s =>
    match sockRecv (n + 1) s with
    | (packet, s1) =>
      if h : packet = [] then (none, s1)
      else
        match recv_all (n + 1 - packet.length) s1 with
        | (none, s') => (none, s')
        | (some rest, s') => (some (packet ++ rest), s')
termination_by n _ => n
decreasing_by
  have : 0 < packet.length := List.length_pos.mpr h
  omega

/-- `recv_msg`, at the byte level: read the 4-byte length prefix, then that
many payload bytes; `none` whenever the Python original returns `None`
(closure before the prefix, closure before the full payload, or a falsy
empty payload). -/
def recv_msg (s : Stream') : Option (List Byte) :=
  match recv_all 4 s with
  | (none, _) => none
  | (some raw, s1) =>
    if raw = [] then none
    else
      match recv_all (unpackU32 raw) s1 with
      | (none, _) => none
      | (some payload, _) => if payload = [] then none else some payload

/-! ### Facts about `sockRecv` and `recv_all` -/

theorem sockRecv_flatten (n : Nat) (s : Stream') :
    (sockRecv n s).1 ++ (sockRecv n s).2.flatten = s.flatten := by
  cases s with
  | nil => simp [sockRecv]
  | cons c rest =>
    simp only [sockRecv]
    split
    · simp
    · simp only [List.flatten_cons]
      rw [← List.append_assoc, List.take_append_drop]

theorem sockRecv_length_le (n : Nat) (s : Stream') :
    (sockRecv n s).1.length ≤ n ∨ s = [] := by
  cases s with
  | nil => right; rfl
  | cons c rest =>
    left
    simp only [sockRecv]
    split
    · assumption
    · simp

theorem sockRecv_packet_ne_nil (n : Nat) (s : Stream') (hn : 1 ≤ n) (hs : s ≠ [])
    (hc : ∀ c ∈ s, c ≠ []) : (sockRecv n s).1 ≠ [] := by
  cases s with
  | nil => exact absurd rfl hs
  | cons c rest =>
    have hcne : c ≠ [] := hc c (by simp)
    simp only [sockRecv]
    split
    · exact hcne
    · rename_i hlen
      have hcl : 1 ≤ c.length := List.length_pos.mpr hcne
      intro hnil
      have hl := congrArg List.length hnil
      simp only [List.length_take, List.length_nil] at hl
      omega

theorem sockRecv_chunks (n : Nat) (s : Stream') (hc : ∀ c ∈ s, c ≠ []) :
    ∀ c ∈ (sockRecv n s).2, c ≠ [] := by
  cases s with
  | nil => simp [sockRecv]
  | cons c rest =>
    simp only [sockRecv]
    split
    · exact fun d hd => hc d (List.mem_cons_of_mem _ hd)
    · rename_i hlen
      intro d hd
      rcases List.mem_cons.mp hd with h | h
      · subst h
        simp only [ne_eq, List.drop_eq_nil_iff]
        omega
      · exact hc d (List.mem_cons_of_mem _ h)

/-- `recv_all n` on a stream whose bytes are `data ++ rest` with
`data.length = n` succeeds and delivers exactly `data`, leaving a stream
holding exactly `rest`: short packets are re-read, never treated as
closure. -/
theorem recv_all_exact (n : Nat) (s : Stream') (data rest : List Byte)
    (hc : ∀ c ∈ s, c ≠ []) (hflat : s.flatten = data ++ rest) (hlen : data.length = n) :
    (recv_all n s).1 = some data ∧ (recv_all n s).2.flatten = rest ∧
      ∀ c ∈ (recv_all n s).2, c ≠ [] := by
  induction n using Nat.strong_induction_on generalizing s data with
  | _ n ih =>
    match n with
    | 0 =>
      have : data = [] := List.length_eq_zero.mp hlen
      subst this
      simpa [recv_all] using ⟨hflat, hc⟩
    | n + 1 =>
      have hsne : s ≠ [] := by
        intro h
        subst h
        simp only [List.flatten_nil] at hflat
        have := congrArg List.length hflat
        simp at this
        omega
      have hpne : (sockRecv (n + 1) s).1 ≠ [] :=
        sockRecv_packet_ne_nil (n + 1) s (by omega) hsne hc
      have hple : (sockRecv (n + 1) s).1.length ≤ n + 1 := by
        rcases sockRecv_length_le (n + 1) s with h | h
        · exact h
        · exact absurd h hsne
      have hsplit := sockRecv_flatten (n + 1) s
      have hc1 : ∀ c ∈ (sockRecv (n + 1) s).2, c ≠ [] := sockRecv_chunks (n + 1) s hc
      set packet := (sockRecv (n + 1) s).1 with hpdef
      set s1 := (sockRecv (n + 1) s).2 with hs1def
      -- `packet` is a prefix of `data`
      have hplen_data : packet.length ≤ data.length := by omega
      have hflat1 : packet ++ s1.flatten = data ++ rest := by rw [hsplit, hflat]
      have hpack : packet = data.take packet.length := by
        have h2 := congrArg (List.take packet.length) hflat1
        rwa [List.take_left, List.take_append_of_le_length hplen_data] at h2
      have hs1flat : s1.flatten = data.drop packet.length ++ rest := by
        have h3 := congrArg (List.drop packet.length) hflat1
        rwa [List.drop_left, List.drop_append_of_le_length hplen_data] at h3
      have hdlen : (data.drop packet.length).length = n + 1 - packet.length := by
        simp [hlen]
      have hppos : 1 ≤ packet.length := List.length_pos.mpr hpne
      have hrec := ih (n + 1 - packet.length) (by omega) s1 (data.drop packet.length)
        hc1 hs1flat hdlen
      have hunfold : recv_all (n + 1) s =
          match recv_all (n + 1 - packet.length) s1 with
          | (none, s') => (none, s')
          | (some rest', s') => (some (packet ++ rest'), s') := by
        rw [recv_all]
        simp only [← hpdef, ← hs1def, dif_neg hpne]
      rcases hfst : recv_all (n + 1 - packet.length) s1 with ⟨r1, s'⟩
      rw [hfst] at hrec
      cases r1 with
      | none => simp at hrec
      | some rest' =>
        simp only at hrec
        obtain ⟨hr1, hr2, hr3⟩ := hrec
        have hrest' : rest' = data.drop packet.length := by
          injection hr1
        subst hrest'
        rw [hunfold, hfst]
        refine ⟨?_, hr2, hr3⟩
        simp only [Option.some.injEq]
        nth_rewrite 1 [hpack]
        rw [List.take_append_drop]

/-- `recv_all n` on a stream that closes before `n` bytes arrive returns
`none`. -/
theorem recv_all_short (n : Nat) (s : Stream') (hc : ∀ c ∈ s, c ≠ [])
    (hshort : s.flatten.length < n) : (recv_all n s).1 = none := by
  induction n using Nat.strong_induction_on generalizing s with
  | _ n ih =>
    match n with
    | 0 => omega
    | n + 1 =>
      by_cases hsne : s = []
      · subst hsne
        rw [recv_all]
        simp [sockRecv]
      · have hpne : (sockRecv (n + 1) s).1 ≠ [] :=
          sockRecv_packet_ne_nil (n + 1) s (by omega) hsne hc
        have hsplit := sockRecv_flatten (n + 1) s
        have hc1 : ∀ c ∈ (sockRecv (n + 1) s).2, c ≠ [] := sockRecv_chunks (n + 1) s hc
        set packet := (sockRecv (n + 1) s).1 with hpdef
        set s1 := (sockRecv (n + 1) s).2 with hs1def
        have hppos : 1 ≤ packet.length := List.length_pos.mpr hpne
        have hflatlen : packet.length + s1.flatten.length = s.flatten.length := by
          have := congrArg List.length hsplit
          simpa using this
        have hrec := ih (n + 1 - packet.length) (by omega) s1 hc1 (by omega)
        have hunfold : recv_all (n + 1) s =
            match recv_all (n + 1 - packet.length) s1 with
            | (none, s') => (none, s')
            | (some rest', s') => (some (packet ++ rest'), s') := by
          rw [recv_all]
          simp only [← hpdef, ← hs1def, dif_neg hpne]
        rcases hfst : recv_all (n + 1 - packet.length) s1 with ⟨r1, s'⟩
        rw [hfst] at hrec
        cases r1 with
        | none => rw [hunfold, hfst]
        | some rest' => simp at hrec

/-- Big-endian 32-bit round trip. -/
theorem unpackU32_packU32 (n : Nat) (h : n < 2 ^ 32) : unpackU32 (packU32 n) = n := by
  simp only [packU32, unpackU32]
  omega

theorem packU32_ne_nil (n : Nat) : packU32 n ≠ [] := by simp [packU32]

theorem packU32_length (n : Nat) : (packU32 n).length = 4 := by simp [packU32]

/-- C1: for every JSON-encodable message `m` (its stdlib serialization
round-trips and is a non-empty payload shorter than `2^32` bytes), reading
with `recv_msg` from any packetization of the bytes written by `send_msg`
and deserializing reconstructs `m` itself. -/
theorem C1_send_recv_roundtrip {J : Type} (dumps : J → List Byte)
    (loads : List Byte → Option J) (m : J)
    (hjson : loads (dumps m) = some m) (hne : dumps m ≠ [])
    (hlen : (dumps m).length < 2 ^ 32)
    (s : Stream') (hc : ∀ c ∈ s, c ≠ []) (hs : s.flatten = send_msg (dumps m)) :
    (recv_msg s).bind loads = some m := by
  have h4 := recv_all_exact 4 s (packU32 (dumps m).length) (dumps m) hc
    (by rw [hs]; rfl) (packU32_length _)
  rcases hra : recv_all 4 s with ⟨r4, s1⟩
  rw [hra] at h4
  obtain ⟨hr4, hs1flat, hc1⟩ := h4
  simp only at hr4 hs1flat hc1
  have hr4' : r4 = some (packU32 (dumps m).length) := hr4
  have hpay := recv_all_exact (dumps m).length s1 (dumps m) [] hc1
    (by rw [hs1flat, List.append_nil]) rfl
  rcases hrb : recv_all (dumps m).length s1 with ⟨rp, s2⟩
  rw [hrb] at hpay
  obtain ⟨hrp, -, -⟩ := hpay
  simp only at hrp
  unfold recv_msg
  rw [hra, hr4']
  simp only [packU32_ne_nil, if_neg, unpackU32_packU32 _ hlen]
  rw [hrb, hrp]
  simp only [if_neg hne, Option.bind_some]
  exact hjson

/-- Witness for C1 at a concrete one-byte payload and the single-packet
stream written by `send_msg`. -/
theorem C1_send_recv_roundtrip_witness :
    (recv_msg [send_msg [123]]).bind some = some [123] :=
  C1_send_recv_roundtrip id some [123] rfl (by decide) (by decide)
    [send_msg [123]] (by decide) (by simp)

/-- C2: a stream that closes with fewer than 4 total bytes, or after the
length prefix but before the declared payload is complete, makes `recv_msg`
return `none` (never a truncated payload); and `recv_all n` on an open
stream keeps accumulating across arbitrarily short packets until all `n`
bytes are read. -/
theorem C2_eof_returns_none (s : Stream') (hc : ∀ c ∈ s, c ≠ []) :
    (s.flatten.length < 4 → recv_msg s = none) ∧
    (∀ L payload, L < 2 ^ 32 → s.flatten = packU32 L ++ payload →
      payload.length < L → recv_msg s = none) ∧
    (∀ n data, s.flatten = data → data.length = n → (recv_all n s).1 = some data) := by
  refine ⟨?_, ?_, ?_⟩
  · intro hshort
    have h4 := recv_all_short 4 s hc hshort
    unfold recv_msg
    rcases hra : recv_all 4 s with ⟨r4, s1⟩
    rw [hra] at h4
    simp only at h4
    rw [h4]
  · intro L payload hL hflat hplen
    have h4 := recv_all_exact 4 s (packU32 L) payload hc (by rw [hflat]) (packU32_length _)
    rcases hra : recv_all 4 s with ⟨r4, s1⟩
    rw [hra] at h4
    obtain ⟨hr4, hs1flat, hc1⟩ := h4
    simp only at hr4 hs1flat hc1
    have hpay := recv_all_short L s1 hc1 (by rw [hs1flat]; exact hplen)
    unfold recv_msg
    rw [hra, hr4]
    simp only [packU32_ne_nil, if_neg, unpackU32_packU32 _ hL]
    rcases hrb : recv_all L s1 with ⟨rp, s2⟩
    rw [hrb] at hpay
    simp only at hpay
    rw [hpay]
    simp
  · intro n data hflat hlen
    exact (recv_all_exact n s data [] hc (by rw [hflat, List.append_nil]) hlen).1

/-- Witness for C2: a stream closing after 2 bytes, and one closing with
only 2 of 5 declared payload bytes, both yield `none`. -/
theorem C2_eof_returns_none_witness :
    recv_msg [[0, 0]] = none ∧ recv_msg [[0, 0], [0, 5, 1], [2]] = none :=
  ⟨(C2_eof_returns_none [[0, 0]] (by decide)).1 (by decide),
   (C2_eof_returns_none [[0, 0], [0, 5, 1], [2]] (by decide)).2.1 5 [1, 2]
     (by decide) (by decide) (by decide)⟩

/-- C10: a frame whose 4-byte length prefix decodes to 0 makes `recv_msg`
return `none` on an open stream — the same signal `recv_msg` yields on a
closed (exhausted) stream. -/
theorem C10_zero_length_frame (s : Stream') (hc : ∀ c ∈ s, c ≠ [])
    (extra : List Byte) (hs : s.flatten = packU32 0 ++ extra) :
    recv_msg s = none ∧ recv_msg [] = none := by
  constructor
  · have h4 := recv_all_exact 4 s (packU32 0) extra hc (by rw [hs]) (packU32_length _)
    rcases hra : recv_all 4 s with ⟨r4, s1⟩
    rw [hra] at h4
    obtain ⟨hr4, hs1flat, hc1⟩ := h4
    simp only at hr4 hs1flat hc1
    unfold recv_msg
    rw [hra, hr4]
    simp only [packU32_ne_nil, if_neg, unpackU32_packU32 0 (by norm_num)]
    rw [recv_all]
    simp
  · unfold recv_msg
    rw [recv_all]
    simp [sockRecv]

/-- Witness for C10: a stream delivering the zero-length frame followed by
a stray byte. -/
theorem C10_zero_length_frame_witness :
    recv_msg [[0, 0, 0, 0, 7]] = none ∧ recv_msg [] = none :=
  C10_zero_length_frame [[0, 0, 0, 0, 7]] (by decide) [7] (by decide)

/-! ### The replicated world model and the inbound-message dispatcher

Python dicts keep insertion order; they are modelled as association lists
with in-place update on an existing key and append on a new one. -/

def dictInsert {α : Type} (k : String) (v : α) : List (String × α) → List (String × α)
  | [] => [(k, v)]
  | (k', v') :: rest => if k' = k then (k, v) :: rest else (k', v') :: dictInsert k v rest

def dictErase {α : Type} (k : String) : List (String × α) → List (String × α)
  | [] => []
  | (k', v') :: rest => if k' = k then rest else (k', v') :: dictErase k rest

def dictGet {α : Type} (k : String) : List (String × α) → Option α
  | [] => none
  | (k', v') :: rest => if k' = k then some v' else dictGet k rest

theorem dictGet_dictInsert_self {α : Type} (k : String) (v : α) (l : List (String × α)) :
    dictGet k (dictInsert k v l) = some v := by
  induction l with
  | nil => simp [dictInsert, dictGet]
  | cons hd tl ih =>
    rcases hd with ⟨k', v'⟩
    by_cases h : k' = k
    · simp [dictInsert, dictGet, h]
    · simp [dictInsert, dictGet, h, ih]

theorem dictGet_dictInsert_ne {α : Type} (k k' : String) (v : α) (l : List (String × α))
    (h : k' ≠ k) : dictGet k' (dictInsert k v l) = dictGet k' l := by
  induction l with
  | nil => simp [dictInsert, dictGet, Ne.symm h]
  | cons hd tl ih =>
    rcases hd with ⟨k'', v''⟩
    by_cases h2 : k'' = k
    · subst h2
      simp [dictInsert, dictGet, Ne.symm h]
    · simp [dictInsert, dictGet, h2, ih]

/-- A hotbar slot: empty or a block kind with a count. -/
abbrev Slot := Option (String × Int)

/-- The mutable fields of `ServerConnection` that the receive loop writes
(`__init__`, lines 339–358).  `last_position_send` is the throttler
timestamp, initialized to the construction time. -/
structure ConnState where
  connected : Bool
  player_level : Int
  server_name : String
  motd : String
  world : List (List String)
  players : List (String × ℚ × ℚ)
  player_colors : List (String × String)
  player_x : ℚ
  player_y : ℚ
  hotbar : List Slot
  chat_messages : List String
  last_position_send : ℚ
  disconnect_reason : Option String
  respawn_flag : Bool
deriving DecidableEq

/-- `ServerConnection.__init__` at construction time `t0`. -/
def initState (t0 : ℚ) : ConnState where
  connected := false
  player_level := 0
  server_name := ""
  motd := ""
  world := []
  players := []
  player_colors := []
  player_x := 10
  player_y := 3
  hotbar := List.replicate 7 none
  chat_messages := []
  last_position_send := t0
  disconnect_reason := none
  respawn_flag := false

/-- One inbound message, as dispatched on its `type` tag.  Fields read with
`msg.get(key, default)` are `Option`s (`none` = key absent); the few read
with a bare `msg.get(key)` and then used as numbers or keys are required,
since a `None` there makes the Python handler raise and the session drop. -/
inductive Msg where
  | welcome (server motd : Option String) (world : Option (List (List String)))
      (x y : Option ℚ) (hotbar : Option (List Slot)) (level : Option Int)
  | respawn (x y : Option ℚ)
  | chat (sender : Option String) (level : Option Int) (message : Option String)
  | update_block (x y : Int) (block : String)
  | player_join (id : String) (x y : ℚ) (color : Option String)
  | player_move (id : String) (x y : ℚ)
  | player_color (id : String) (color : Option String)
  | player_leave (id : String)
  | hotbar_update (hotbar : Option (List Slot))
  | disconnect (reason : Option String)
  | unknown

/-- The dispatcher of `ServerConnection.listen_server` (lines 395–461):
the effect of one inbound message on the connection state. -/
def applyMsg (st : ConnState) : Msg → ConnState
  | .welcome server motd world x y hotbar level =>
    { st with
      server_name := server.getD ""
      motd := motd.getD ""
      world := world.getD []
      player_x := x.getD 10
      player_y := y.getD 3
      hotbar := hotbar.getD (List.replicate 7 none)
      player_level := level.getD 0 }
  | .respawn x y =>
    { st with player_x := x.getD 10, player_y := y.getD 3, respawn_flag := true }
  | .chat sender level message =>
    let line := sender.getD "???" ++ " [" ++ toString (level.getD 0) ++ "] >> " ++
      message.getD ""
    let msgs := st.chat_messages ++ [line]
    { st with chat_messages := if 100 < msgs.length then msgs.tail else msgs }
  | .update_block x y block =>
    if 0 ≤ y ∧ y < (st.world.length : Int) ∧ 0 ≤ x ∧
        x < (((st.world.headD []).length : Nat) : Int) then
      { st with world :=
          st.world.set y.toNat ((st.world[y.toNat]?.getD []).set x.toNat block) }
    else st
  | .player_join id x y color =>
    { st with
      players := dictInsert id (x, y) st.players
      player_colors := dictInsert id (color.getD "blue") st.player_colors }
  | .player_move id x y =>
    { st with players := dictInsert id (x, y) st.players }
  | .player_color id color =>
    { st with player_colors := dictInsert id (color.getD "blue") st.player_colors }
  | .player_leave id =>
    { st with
      players := dictErase id st.players
      player_colors := dictErase id st.player_colors }
  | .hotbar_update hotbar =>
    { st with hotbar := hotbar.getD (List.replicate 7 none) }
  | .disconnect reason =>
    { st with disconnect_reason := some (reason.getD "Disconnected"), connected := false }
  | .unknown => st

/-- One cell of the tile grid, row `i`, column `j`. -/
def gridCell (world : List (List String)) (i j : Nat) : Option String :=
  (world[i]?.getD [])[j]?

/-- C5: an `update_block` message with out-of-bounds coordinates leaves the
whole connection state (in particular the grid) unchanged; with in-bounds
coordinates it replaces exactly the cell at row `y`, column `x`, leaving
every other cell as it was.  The grid is assumed rectangular (the bound
check reads row 0's width, and the session invariant keeps rows equal). -/
theorem C5_update_block (st : ConnState) (x y : Int) (b : String)
    (hrect : ∀ row ∈ st.world, row.length = (st.world.headD []).length) :
    (¬ (0 ≤ y ∧ y < (st.world.length : Int) ∧ 0 ≤ x ∧
        x < (((st.world.headD []).length : Nat) : Int)) →
      applyMsg st (.update_block x y b) = st) ∧
    ((0 ≤ y ∧ y < (st.world.length : Int) ∧ 0 ≤ x ∧
        x < (((st.world.headD []).length : Nat) : Int)) →
      (applyMsg st (.update_block x y b)).world.length = st.world.length ∧
      ∀ i j : Nat,
        gridCell (applyMsg st (.update_block x y b)).world i j =
          if i = y.toNat ∧ j = x.toNat then some b else gridCell st.world i j) := by
  constructor
  · intro h
    simp only [applyMsg, if_neg h]
  · intro h
    obtain ⟨hy0, hyl, hx0, hxl⟩ := h
    have hyn : y.toNat < st.world.length := by omega
    have hxn : x.toNat < (st.world.headD []).length := by omega
    have hrow : st.world[y.toNat]?.getD [] = st.world[y.toNat] := by
      rw [List.getElem?_eq_getElem hyn]
      rfl
    have hrlen : (st.world[y.toNat]).length = (st.world.headD []).length :=
      hrect _ (List.getElem_mem hyn)
    constructor
    · simp only [applyMsg, if_pos (⟨hy0, hyl, hx0, hxl⟩ :
        0 ≤ y ∧ y < (st.world.length : Int) ∧ 0 ≤ x ∧
          x < (((st.world.headD []).length : Nat) : Int))]
      simp [List.length_set]
    · intro i j
      simp only [applyMsg, if_pos (⟨hy0, hyl, hx0, hxl⟩ :
        0 ≤ y ∧ y < (st.world.length : Int) ∧ 0 ≤ x ∧
          x < (((st.world.headD []).length : Nat) : Int))]
      by_cases hi : i = y.toNat
      · subst hi
        unfold gridCell
        rw [List.getElem?_set_eq_of_lt _ hyn]
        simp only [Option.getD_some]
        by_cases hj : j = x.toNat
        · subst hj
          rw [List.getElem?_set_eq_of_lt]
          · simp
          · rw [hrow, hrlen]
            exact hxn
        · rw [List.getElem?_set_ne (by exact fun hh => hj hh.symm)]
          simp [hj, hrow]
      · unfold gridCell
        rw [List.getElem?_set_ne (by exact fun hh => hi hh.symm)]
        simp [hi]

/-- A small concrete session state: a 2×2 grid, one known peer `"q"`. -/
def exampleState : ConnState :=
  { initState 0 with
    world := [["air", "air"], ["stone", "stone"]]
    players := [("q", 1, 1)]
    player_colors := [("q", "red")] }

/-- Witness for C5: in the 2×2 grid, an in-bounds `update_block` at
`(x,y) = (1,0)` rewrites exactly that cell, and an out-of-bounds one at
`(x,y) = (5,0)` changes nothing. -/
theorem C5_update_block_witness :
    gridCell (applyMsg exampleState (.update_block 1 0 "wood")).world 0 1 = some "wood" ∧
    gridCell (applyMsg exampleState (.update_block 1 0 "wood")).world 1 0 = some "stone" ∧
    applyMsg exampleState (.update_block 5 0 "wood") = exampleState := by
  have h := C5_update_block exampleState 1 0 "wood" (by decide)
  refine ⟨?_, ?_, ?_⟩
  · have h2 := (h.2 (by decide)).2 0 1
    simpa using h2
  · have h2 := (h.2 (by decide)).2 1 0
    simpa using h2
  · exact (C5_update_block exampleState 5 0 "wood" (by decide)).1 (by decide)

/-- C6 counterexample: in `exampleState` the id `"p"` is not in the peer
map, yet a `player_color` message for `"p"` changes the color mapping (it
inserts the unknown id) — the message is not a no-op as claimed. -/
theorem C6_player_color_counterexample :
    dictGet "p" exampleState.players = none ∧
    (applyMsg exampleState (.player_color "p" (some "green"))).player_colors ≠
      exampleState.player_colors := by
  decide

/-- C6 amended: `player_color` never touches the peer position map, and
unconditionally writes the color mapping entry for the given id (updating
a known id in place, inserting an unknown one); every other id's color is
unchanged. -/
theorem C6_player_color_amended (st : ConnState) (id : String) (color : Option String) :
    (applyMsg st (.player_color id color)).players = st.players ∧
    (applyMsg st (.player_color id color)).player_colors =
      dictInsert id (color.getD "blue") st.player_colors ∧
    dictGet id (applyMsg st (.player_color id color)).player_colors =
      some (color.getD "blue") ∧
    ∀ k, k ≠ id → dictGet k (applyMsg st (.player_color id color)).player_colors =
      dictGet k st.player_colors := by
  refine ⟨rfl, rfl, ?_, ?_⟩
  · exact dictGet_dictInsert_self id _ st.player_colors
  · intro k hk
    exact dictGet_dictInsert_ne id k _ st.player_colors hk

/-- Witness for C6's amended theorem (its last conjunct has the premise
`k ≠ id`): color update for unknown `"p"` leaves known `"q"`'s color
alone. -/
theorem C6_player_color_amended_witness :
    dictGet "p" (applyMsg exampleState (.player_color "p" (some "green"))).player_colors =
      some "green" ∧
    dictGet "q" (applyMsg exampleState (.player_color "p" (some "green"))).player_colors =
      some "red" := by
  have h := C6_player_color_amended exampleState "p" (some "green")
  refine ⟨h.2.2.1, ?_⟩
  have h2 := h.2.2.2 "q" (by decide)
  rw [h2]
  decide

/-- C7 counterexample: the hotbar starts with 7 slots, but a
`hotbar_update` carrying a 3-slot sequence leaves the hotbar with 3 slots,
not 7 — the message replaces the hotbar verbatim without length policing. -/
theorem C7_hotbar_counterexample :
    (initState 0).hotbar.length = 7 ∧
    (applyMsg (initState 0) (.hotbar_update (some [none, none, none]))).hotbar.length ≠ 7 := by
  decide

/-- C7 amended: the hotbar is initialized with exactly 7 slots, and
`hotbar_update` replaces it with exactly the carried sequence (defaulting
to 7 empty slots when the field is absent) — so the 7-slot invariant is
preserved only by 7-slot updates. -/
theorem C7_hotbar_amended (st : ConnState) (t0 : ℚ) (h : Option (List Slot))
    (l : List Slot) :
    (initState t0).hotbar.length = 7 ∧
    (applyMsg st (.hotbar_update h)).hotbar = h.getD (List.replicate 7 none) ∧
    (applyMsg st (.hotbar_update (some l))).hotbar.length = l.length ∧
    (applyMsg st (.hotbar_update none)).hotbar.length = 7 := by
  refine ⟨by simp [initState], rfl, by simp [applyMsg], by simp [applyMsg]⟩

/-! ### The outbound position throttler -/

/-- `ServerConnection.send_position` (lines 476–485): given the `connected`
flag and the stored `last_position_send` timestamp, the current time, the
coordinates, and whether the underlying `send_msg` would succeed, returns
the new `(connected, last_position_send)` pair and the transmitted
coordinates (`none` when the call was suppressed or the send failed).
The minimum interval, written `0.05` in the source, is `1/20` here. -/
def send_position (connected : Bool) (last_position_send now x y : ℚ) (ok : Bool) :
    (Bool × ℚ) × Option (ℚ × ℚ) :=
  if connected then
    if now - last_position_send > 1 / 20 then
      if ok then ((true, now), some (x, y))
      else ((false, last_position_send), none)
    else ((connected, last_position_send), none)
  else ((connected, last_position_send), none)

/-- C3 counterexample: `__init__` sets `last_position_send` to the
construction time, not to "never sent"; for a session constructed at the
instant of its first `send_position` call, the call at `t = 0.00` is
suppressed — contradicting the claim that for every session the first call
transmits. -/
theorem C3_throttle_counterexample :
    (initState 0).last_position_send = 0 ∧
    (send_position true (initState 0).last_position_send 0 1 1 true).2 = none := by
  have hc : ¬ ((0 : ℚ) - (initState 0).last_position_send > 1 / 20) := by
    norm_num [initState]
  refine ⟨rfl, ?_⟩
  unfold send_position
  rw [if_pos (rfl : (true : Bool) = true), if_neg hc]

/-- C3 amended: provided more than the minimum interval (1/20) has elapsed
between the stored last-send timestamp and the first call, calls at
`t`, `t + 0.03`, `t + 0.06` transmit, are suppressed, and transmit
respectively, and the stored timestamp is updated exactly on successful
transmission (unchanged on suppression and on send failure). -/
theorem C3_throttle_amended (last t x1 y1 x2 y2 x3 y3 : ℚ) (h : t - last > 1 / 20) :
    (send_position true last t x1 y1 true).2 = some (x1, y1) ∧
    (send_position true last t x1 y1 true).1 = (true, t) ∧
    (send_position true t (t + 3 / 100) x2 y2 true).2 = none ∧
    (send_position true t (t + 3 / 100) x2 y2 true).1 = (true, t) ∧
    (send_position true t (t + 6 / 100) x3 y3 true).2 = some (x3, y3) ∧
    (send_position true t (t + 6 / 100) x3 y3 true).1 = (true, t + 6 / 100) ∧
    (∀ c last' now x y, (send_position c last' now x y false).1.2 = last') ∧
    (∀ last' now x y, (send_position true last' now x y true).2 = none →
      (send_position true last' now x y true).1.2 = last') := by
  have e2 : t + 3 / 100 - t = 3 / 100 := by ring
  have e3 : t + 6 / 100 - t = 6 / 100 := by ring
  have h2 : ¬ (t + 3 / 100 - t > (1 : ℚ) / 20) := by
    rw [e2]
    norm_num
  have h3 : t + 6 / 100 - t > (1 : ℚ) / 20 := by
    rw [e3]
    norm_num
  have htt : (true : Bool) = true := rfl
  have hff : ¬ ((false : Bool) = true) := by decide
  refine ⟨?_, ?_, ?_, ?_, ?_, ?_, ?_, ?_⟩
  · unfold send_position
    rw [if_pos htt, if_pos h, if_pos htt]
  · unfold send_position
    rw [if_pos htt, if_pos h, if_pos htt]
  · unfold send_position
    rw [if_pos htt, if_neg h2]
  · unfold send_position
    rw [if_pos htt, if_neg h2]
  · unfold send_position
    rw [if_pos htt, if_pos h3, if_pos htt]
  · unfold send_position
    rw [if_pos htt, if_pos h3, if_pos htt]
  · intro c last' now x y
    cases c with
    | false =>
      unfold send_position
      rw [if_neg hff]
    | true =>
      unfold send_position
      rw [if_pos htt]
      by_cases hgt : now - last' > (1 : ℚ) / 20
      · rw [if_pos hgt, if_neg hff]
      · rw [if_neg hgt]
  · intro last' now x y hn
    by_cases hgt : now - last' > (1 : ℚ) / 20
    · exfalso
      unfold send_position at hn
      rw [if_pos htt, if_pos hgt, if_pos htt] at hn
      exact Option.some_ne_none _ hn
    · unfold send_position
      rw [if_pos htt, if_neg hgt]

/-- Witness for C3's amended theorem: session idle since `t = -1`, calls at
`t = 0, 0.03, 0.06`. -/
theorem C3_throttle_amended_witness :
    (send_position true (-1) 0 1 2 true).2 = some (1, 2) ∧
    (send_position true 0 (3 / 100) 3 4 true).2 = none ∧
    (send_position true 0 (6 / 100) 5 6 true).2 = some (5, 6) := by
  have h := C3_throttle_amended (-1) 0 1 2 3 4 5 6 (by norm_num)
  refine ⟨h.1, ?_, ?_⟩
  · have := h.2.2.1
    simpa using this
  · have := h.2.2.2.2.1
    simpa using this

/-! ### The per-frame movement and collision simulator (`game_screen`)

Positions and velocities are rationals; `int()` (Python truncation toward
zero) is `pyInt`.  The simulator state carried from frame to frame is the
local player's position, velocity, grounded flag, and the grid cell
computed at line 1435–1436 of the previous frame (the horizontal collision
scan at line 1399 reads the previous frame's `player_grid_y`). -/

/-- Python `int()` on a rational: truncation toward zero. -/
def pyInt (q : ℚ) : Int := if q < 0 then -(Int.floor (-q)) else Int.floor q

/-- Python `max` on two rationals. -/
def pyMax (a b : ℚ) : ℚ := if a < b then b else a

/-- Python `min` on two rationals. -/
def pyMin (a b : ℚ) : ℚ := if b < a then b else a

/-- Python `abs` on a rational. -/
def pyAbs (q : ℚ) : ℚ := if q < 0 then -q else q

/-- The grid width the code uses everywhere: `len(world[0])`. -/
def rowLen (world : List (List String)) : Nat := (world.headD []).length

/-- The in-bounds non-air test the collision scans perform on a cell
`(cy, cx)` (`0 <= check_y < len(world) and 0 <= check_x < len(world[0])`
and `world[check_y][check_x] != "air"`). -/
def solidAt (world : List (List String)) (cy cx : Int) : Bool :=
  decide (0 ≤ cy ∧ cy < (world.length : Int) ∧ 0 ≤ cx ∧ cx < ((rowLen world : Nat) : Int) ∧
    (world.getD cy.toNat []).getD cx.toNat "air" ≠ "air")

/-- The horizontal collision scan (lines 1396–1422): with the previous
frame's `player_grid_y` as `gyp`, the tentative `new_x` is rejected when
some cell in rows `gyp, gyp+1` and columns `int(new_x)-1 .. int(new_x)+1`
is solid and the player's box at `(new_x, y)` would overlap it with the
0.1 vertical tolerance. -/
def blocksMoveX (world : List (List String)) (gyp : Int) (new_x y : ℚ) : Bool :=
  [gyp, gyp + 1].any fun cy =>
    [(-1 : Int), 0, 1].any fun off =>
      solidAt world cy (pyInt new_x + off) &&
        decide (y + 2 > (cy : ℚ) + 1 / 10 ∧ y < (cy : ℚ) + 1 - 1 / 10 ∧
          new_x + 2 / 5 > ((pyInt new_x + off : Int) : ℚ) ∧
          new_x - 2 / 5 < ((pyInt new_x + off : Int) : ℚ) + 1)

/-- State mutated by the vertical collision scan: `player_y`, `player_vy`,
`on_ground`. -/
structure VState where
  y : ℚ
  vy : ℚ
  on_ground : Bool
deriving DecidableEq

/-- Whether the scan's overlap test fires for cell `c = (cy, cx)` at
horizontal position `x` and vertical position `y` (lines 1444–1457). -/
def hitCell (world : List (List String)) (x y : ℚ) (c : Int × Int) : Bool :=
  solidAt world c.1 c.2 &&
    decide (x + 2 / 5 > (c.2 : ℚ) ∧ x - 2 / 5 < (c.2 : ℚ) + 1 ∧
      y + 2 > (c.1 : ℚ) ∧ y < (c.1 : ℚ) + 1)

/-- The body of the vertical collision loop for one scanned cell (lines
1444–1465): on overlap, falling motion snaps the player's bottom to the
cell's top and grounds it; upward motion snaps the player's top to the
cell's bottom; `vy = 0` leaves the state alone. -/
def collideCell (world : List (List String)) (x : ℚ) (s : VState) (c : Int × Int) : VState :=
  if hitCell world x s.y c then
    if s.vy > 0 then { y := (c.1 : ℚ) - 2, vy := 0, on_ground := true }
    else if s.vy < 0 then { y := (c.1 : ℚ) + 1, vy := 0, on_ground := s.on_ground }
    else s
  else s

/-- The nine cells the vertical scan visits, in loop order (rows
`gy, gy+1, gy+2` by columns `gx-1, gx, gx+1`). -/
def scanCells (gy gx : Int) : List (Int × Int) :=
  [(gy, gx - 1), (gy, gx), (gy, gx + 1),
   (gy + 1, gx - 1), (gy + 1, gx), (gy + 1, gx + 1),
   (gy + 2, gx - 1), (gy + 2, gx), (gy + 2, gx + 1)]

/-- The whole vertical collision pass (lines 1439–1465): `on_ground` is
reset to `false`, then the nine cells are scanned in order. -/
def vertical_pass (world : List (List String)) (x : ℚ) (gy gx : Int) (y vy : ℚ) : VState :=
  (scanCells gy gx).foldl (collideCell world x) ⟨y, vy, false⟩

/-- Input state for one frame: held movement keys, whether chat is open,
and the frame's elapsed time. -/
structure FrameInput where
  left : Bool
  right : Bool
  jump : Bool
  chat_open : Bool
  dt : ℚ
deriving DecidableEq

/-- The local player's simulator state carried across frames. -/
structure PState where
  x : ℚ
  y : ℚ
  vx : ℚ
  vy : ℚ
  on_ground : Bool
  grid_x : Int
  grid_y : Int
deriving DecidableEq

/-- Input-driven horizontal velocity (lines 1375–1380): fixed speed toward
the held direction, left winning over right, zero otherwise. -/
def input_vx (inp : FrameInput) : ℚ := if inp.left then -5 else if inp.right then 5 else 0

/-- Gravity with terminal fall speed 15 (lines 1383–1385). -/
def gravity_vy (dt vy : ℚ) : ℚ := if vy + 25 * dt > 15 then 15 else vy + 25 * dt

/-- Jump (lines 1388–1389): only when grounded. -/
def jump_vy (jump grounded : Bool) (vy : ℚ) : ℚ := if jump && grounded then -12 else vy

/-- Horizontal integration with the collision veto (lines 1391–1425). -/
def horiz_x (world : List (List String)) (gyp : Int) (x y vx dt : ℚ) : ℚ :=
  if vx ≠ 0 then
    if blocksMoveX world gyp (x + vx * dt) y then x else x + vx * dt
  else x

/-- First clamp after integration, horizontal part (line 1431). -/
def clamp1x (W x : ℚ) : ℚ := pyMax (1 / 2) (pyMin x (W - 3 / 2))

/-- First clamp after integration, vertical part (line 1432). -/
def clamp1y (H y : ℚ) : ℚ := pyMax 0 (pyMin y (H - 5 / 2))

/-- Second clamp after the collision pass, horizontal part (lines
1468–1471). -/
def clamp2x (W x : ℚ) : ℚ :=
  if (if x < 1 / 2 then (1 / 2 : ℚ) else x) > W - 3 / 2 then W - 3 / 2
  else if x < 1 / 2 then (1 / 2 : ℚ) else x

/-- Second clamp after the collision pass, vertical part (lines
1472–1473): lower bound only. -/
def clamp2y (y : ℚ) : ℚ := if y < 0 then 0 else y

/-- Peer pushback (lines 1476–1487): for each peer within the 0.8 × 2.0
box, nudge the local x away by 0.1; peers are visited in dict (insertion)
order and the test uses the already-nudged x. -/
def peer_push (players : List (String × ℚ × ℚ)) (y x : ℚ) : ℚ :=
  players.foldl
    (fun xx pl =>
      if pyAbs (xx - pl.2.1) < 4 / 5 ∧ pyAbs (y - pl.2.2) < 2 then
        if xx < pl.2.1 then xx - 1 / 10 else xx + 1 / 10
      else xx) x

/-- The movement/physics block of one frame (lines 1372–1487), which runs
only when chat is closed: input-driven horizontal velocity, gravity with
terminal speed 15, jump, horizontal move with collision veto, vertical
integration, the first clamp, the vertical collision pass, the second
clamp, and peer pushback. -/
def move_phase (world : List (List String)) (players : List (String × ℚ × ℚ))
    (inp : FrameInput) (p : PState) : PState :=
  let vx := input_vx inp
  let vy3 := jump_vy inp.jump p.on_ground (gravity_vy inp.dt p.vy)
  let x1 := horiz_x world p.grid_y p.x p.y vx inp.dt
  let y1 := p.y + vy3 * inp.dt
  let W : ℚ := ((rowLen world : Nat) : ℚ)
  let H : ℚ := ((world.length : Nat) : ℚ)
  let x2 := clamp1x W x1
  let y2 := clamp1y H y1
  let gx := pyInt x2
  let gy := pyInt y2
  let v := vertical_pass world x2 gy gx y2 vy3
  let y3 := clamp2y v.y
  { x := peer_push players y3 (clamp2x W x2), y := y3, vx := vx, vy := v.vy,
    on_ground := v.on_ground, grid_x := gx, grid_y := gy }

/-- One full simulator tick (lines 1282–1490, state-relevant parts): the
respawn check runs first and snaps position/velocity while clearing the
flag; the movement block then runs unless chat is open.  Returns the new
player state and the respawn flag after the tick. -/
def frame (world : List (List String)) (players : List (String × ℚ × ℚ))
    (respawn_flag : Bool) (rx ry : ℚ) (inp : FrameInput) (p : PState) : PState × Bool :=
  let p1 := if respawn_flag then { p with x := rx, y := ry, vx := 0, vy := 0 } else p
  if inp.chat_open then (p1, false) else (move_phase world players inp p1, false)

/-! ### Facts about the vertical collision pass -/

theorem collideCell_not_hit (world : List (List String)) (x : ℚ) (s : VState)
    (c : Int × Int) (h : hitCell world x s.y c = false) :
    collideCell world x s c = s := by
  simp [collideCell, h]

theorem collideCell_vy_zero (world : List (List String)) (x y : ℚ) (g : Bool)
    (c : Int × Int) : collideCell world x ⟨y, 0, g⟩ c = ⟨y, 0, g⟩ := by
  simp [collideCell]

theorem foldl_collide_vy_zero (world : List (List String)) (x y : ℚ) (g : Bool)
    (cells : List (Int × Int)) :
    cells.foldl (collideCell world x) ⟨y, 0, g⟩ = ⟨y, 0, g⟩ := by
  induction cells with
  | nil => rfl
  | cons c tl ih =>
    rw [List.foldl_cons, collideCell_vy_zero]
    exact ih

theorem foldl_collide_no_hit (world : List (List String)) (x y vy : ℚ) (g : Bool)
    (cells : List (Int × Int)) (h : ∀ c ∈ cells, hitCell world x y c = false) :
    cells.foldl (collideCell world x) ⟨y, vy, g⟩ = ⟨y, vy, g⟩ := by
  induction cells with
  | nil => rfl
  | cons c tl ih =>
    rw [List.foldl_cons, collideCell_not_hit world x ⟨y, vy, g⟩ c (h c (by simp))]
    exact ih fun d hd => h d (by simp [hd])

theorem foldl_collide_first_hit (world : List (List String)) (x y vy : ℚ)
    (cells : List (Int × Int)) (c : Int × Int)
    (h : cells.find? (hitCell world x y) = some c) :
    (vy > 0 → cells.foldl (collideCell world x) ⟨y, vy, false⟩ = ⟨(c.1 : ℚ) - 2, 0, true⟩) ∧
    (vy < 0 → cells.foldl (collideCell world x) ⟨y, vy, false⟩ = ⟨(c.1 : ℚ) + 1, 0, false⟩) := by
  induction cells with
  | nil => simp [List.find?] at h
  | cons d tl ih =>
    cases hd : hitCell world x y d with
    | true =>
      rw [List.find?_cons_of_pos _ hd] at h
      have hdc : d = c := by injection h
      subst hdc
      constructor
      · intro hvy
        have hstep : collideCell world x ⟨y, vy, false⟩ d = ⟨(d.1 : ℚ) - 2, 0, true⟩ := by
          simp [collideCell, hd, hvy]
        rw [List.foldl_cons, hstep, foldl_collide_vy_zero]
      · intro hvy
        have hstep : collideCell world x ⟨y, vy, false⟩ d = ⟨(d.1 : ℚ) + 1, 0, false⟩ := by
          simp [collideCell, hd, hvy, asymm hvy]
        rw [List.foldl_cons, hstep, foldl_collide_vy_zero]
    | false =>
      rw [List.find?_cons_of_neg _ (by simp [hd])] at h
      have hstep : collideCell world x ⟨y, vy, false⟩ d = ⟨y, vy, false⟩ :=
        collideCell_not_hit world x ⟨y, vy, false⟩ d hd
      constructor
      · intro hvy
        rw [List.foldl_cons, hstep]
        exact (ih h).1 hvy
      · intro hvy
        rw [List.foldl_cons, hstep]
        exact (ih h).2 hvy

/-- Worlds whose tiles are all `"air"` produce no hit, so the vertical
pass leaves the state unchanged and ungrounded. -/
theorem hitCell_false_of_air (world : List (List String))
    (hair : ∀ row ∈ world, ∀ t ∈ row, t = "air") (x y : ℚ) (c : Int × Int) :
    hitCell world x y c = false := by
  unfold hitCell solidAt
  have hlook : (world[c.1.toNat]?.getD [])[c.2.toNat]?.getD "air" = "air" := by
    cases hrow : world[c.1.toNat]? with
    | none => simp
    | some row =>
      have hmem : row ∈ world := by
        have := List.getElem?_eq_some.mp hrow
        obtain ⟨hlt, hget⟩ := this
        rw [← hget]
        exact List.getElem_mem hlt
      cases ht : row[c.2.toNat]? with
      | none => simp [ht]
      | some t =>
        have htm : t ∈ row := by
          have := List.getElem?_eq_some.mp ht
          obtain ⟨hlt, hget⟩ := this
          rw [← hget]
          exact List.getElem_mem hlt
        simp [ht, hair row hmem t htm]
  simp [hlook, List.getD_eq_getElem?_getD]

theorem vertical_pass_air (world : List (List String))
    (hair : ∀ row ∈ world, ∀ t ∈ row, t = "air") (x : ℚ) (gy gx : Int) (y vy : ℚ) :
    vertical_pass world x gy gx y vy = ⟨y, vy, false⟩ :=
  foldl_collide_no_hit world x y vy false (scanCells gy gx)
    fun c _ => hitCell_false_of_air world hair x y c

/-- C8: during the vertical collision pass (which begins with `on_ground`
reset to `false`), if the scan finds no overlapping solid cell the state
is unchanged and ungrounded; if the first overlapping solid cell in scan
order is `c` and the player is falling (`vy > 0`), the player's bottom
edge (`y + 2`) is snapped exactly to `c`'s top row coordinate with
`vy = 0` and `on_ground = true`; if moving upward (`vy < 0`), the player's
top is snapped to `c`'s bottom with `vy = 0`. -/
theorem C8_vertical_collision (world : List (List String)) (x y vy : ℚ) (gy gx : Int) :
    ((scanCells gy gx).find? (hitCell world x y) = none →
      vertical_pass world x gy gx y vy = ⟨y, vy, false⟩) ∧
    (∀ c : Int × Int, (scanCells gy gx).find? (hitCell world x y) = some c →
      (vy > 0 → (vertical_pass world x gy gx y vy).y + 2 = (c.1 : ℚ) ∧
        (vertical_pass world x gy gx y vy).vy = 0 ∧
        (vertical_pass world x gy gx y vy).on_ground = true) ∧
      (vy < 0 → (vertical_pass world x gy gx y vy).y = (c.1 : ℚ) + 1 ∧
        (vertical_pass world x gy gx y vy).vy = 0 ∧
        (vertical_pass world x gy gx y vy).on_ground = false)) := by
  constructor
  · intro h
    exact foldl_collide_no_hit world x y vy false (scanCells gy gx)
      fun c hc => by
        have := List.find?_eq_none.mp h c hc
        simpa using this
  · intro c h
    have hfold := foldl_collide_first_hit world x y vy (scanCells gy gx) c h
    constructor
    · intro hvy
      have := hfold.1 hvy
      unfold vertical_pass
      rw [this]
      norm_num
    · intro hvy
      have := hfold.2 hvy
      unfold vertical_pass
      rw [this]
      simp

/-- Worlds for concrete simulator scenarios: a 3×3 arena whose bottom row
is stone, and a 4×4 arena of pure air. -/
def world3 : List (List String) :=
  [["air", "air", "air"], ["air", "air", "air"], ["stone", "stone", "stone"]]

def world4 : List (List String) :=
  [["air", "air", "air", "air"], ["air", "air", "air", "air"],
   ["air", "air", "air", "air"], ["air", "air", "air", "air"]]

/-- Witness for C8: over the stone floor of `world3`, a falling player at
`(x, y) = (1.5, 0.1)` is snapped to rest on the floor's top (`y = 0`,
bottom edge at row 2) and grounded; a rising one is snapped beneath it. -/
theorem C8_vertical_collision_witness :
    (vertical_pass world3 (3 / 2) 0 1 (1 / 10) 1).y + 2 = ((2 : Int) : ℚ) ∧
    (vertical_pass world3 (3 / 2) 0 1 (1 / 10) 1).on_ground = true ∧
    (vertical_pass world3 (3 / 2) 0 1 (1 / 10) (-1)).y = ((2 : Int) : ℚ) + 1 := by
  have hset : scanCells 0 1 =
      [(0, 0), (0, 1), (0, 2), (1, 0), (1, 1), (1, 2), (2, 0), (2, 1), (2, 2)] := by
    norm_num [scanCells]
  have h00 : hitCell world3 (3 / 2) (1 / 10) (0, 0) = false := by
    norm_num [hitCell, solidAt, rowLen, world3]
  have h01 : hitCell world3 (3 / 2) (1 / 10) (0, 1) = false := by
    norm_num [hitCell, solidAt, rowLen, world3]
  have h02 : hitCell world3 (3 / 2) (1 / 10) (0, 2) = false := by
    norm_num [hitCell, solidAt, rowLen, world3]
  have h10 : hitCell world3 (3 / 2) (1 / 10) (1, 0) = false := by
    norm_num [hitCell, solidAt, rowLen, world3]
  have h11 : hitCell world3 (3 / 2) (1 / 10) (1, 1) = false := by
    norm_num [hitCell, solidAt, rowLen, world3]
  have h12 : hitCell world3 (3 / 2) (1 / 10) (1, 2) = false := by
    norm_num [hitCell, solidAt, rowLen, world3]
  have h20 : hitCell world3 (3 / 2) (1 / 10) (2, 0) = false := by
    norm_num [hitCell, solidAt, rowLen, world3]
  have hs21 : solidAt world3 2 1 = true := by decide
  have h21 : hitCell world3 (3 / 2) (1 / 10) (2, 1) = true := by
    norm_num [hitCell, hs21]
  have hfind : (scanCells 0 1).find? (hitCell world3 (3 / 2) (1 / 10)) = some (2, 1) := by
    rw [hset,
      List.find?_cons_of_neg _ (by rw [h00]; exact Bool.false_ne_true),
      List.find?_cons_of_neg _ (by rw [h01]; exact Bool.false_ne_true),
      List.find?_cons_of_neg _ (by rw [h02]; exact Bool.false_ne_true),
      List.find?_cons_of_neg _ (by rw [h10]; exact Bool.false_ne_true),
      List.find?_cons_of_neg _ (by rw [h11]; exact Bool.false_ne_true),
      List.find?_cons_of_neg _ (by rw [h12]; exact Bool.false_ne_true),
      List.find?_cons_of_neg _ (by rw [h20]; exact Bool.false_ne_true),
      List.find?_cons_of_pos _ h21]
  have h1 := ((C8_vertical_collision world3 (3 / 2) (1 / 10) 1 0 1).2 (2, 1) hfind).1
    (by norm_num)
  have h2 := ((C8_vertical_collision world3 (3 / 2) (1 / 10) (-1) 0 1).2 (2, 1) hfind).2
    (by norm_num)
  exact ⟨h1.1, h1.2.2, h2.1⟩

/-! ### The respawn snap (C4) and the clamping stages (C9) -/

/-- C4 counterexample: with a pending respawn to `(2, 1)` in the all-air
4×4 world, no keys held, chat closed, and `Δt = 0.1`, the tick does NOT
end at position `(2, 1)` with zero velocity: the remaining simulation
steps still run after the snap, so gravity moves the player to
`y = 5/4` with `vy = 5/2`. -/
theorem C4_respawn_counterexample :
    (frame world4 [] true 2 1 ⟨false, false, false, false, 1 / 10⟩
        ⟨1, 1, 0, 0, false, 1, 1⟩).1.y ≠ 1 ∧
    (frame world4 [] true 2 1 ⟨false, false, false, false, 1 / 10⟩
        ⟨1, 1, 0, 0, false, 1, 1⟩).1.vy ≠ 0 := by
  have hair : ∀ row ∈ world4, ∀ t ∈ row, t = "air" := by decide
  have hvp : vertical_pass world4 2 1 2 (5 / 4) (5 / 2) = ⟨5 / 4, 5 / 2, false⟩ :=
    vertical_pass_air world4 hair 2 1 2 (5 / 4) (5 / 2)
  have hrl : ((rowLen world4 : Nat) : ℚ) = 4 := by norm_num [rowLen, world4]
  have hlen : ((world4.length : Nat) : ℚ) = 4 := by norm_num [world4]
  norm_num [frame, move_phase, input_vx, gravity_vy, jump_vy, horiz_x, clamp1x, clamp1y,
    clamp2x, clamp2y, peer_push, pyMax, pyMin, pyInt, hrl, hlen, hvp]

/-- C4 amended: when the respawn flag is pending, the tick first snaps the
position to the server coordinates, zeroes both velocity components and
clears the flag, and then runs the remaining simulation steps from that
snapped state (it does not skip them): the tick equals a flag-free tick
started from the snapped state. -/
theorem C4_respawn_amended (world : List (List String)) (players : List (String × ℚ × ℚ))
    (rx ry : ℚ) (inp : FrameInput) (p : PState) :
    frame world players true rx ry inp p =
      frame world players false rx ry inp { p with x := rx, y := ry, vx := 0, vy := 0 } ∧
    (frame world players true rx ry inp p).2 = false := by
  constructor
  · rfl
  · cases hc : inp.chat_open <;> simp [frame, hc]

theorem clamp2x_bounds (W z : ℚ) (hW : 2 ≤ W) :
    1 / 2 ≤ clamp2x W z ∧ clamp2x W z ≤ W - 3 / 2 := by
  unfold clamp2x
  split_ifs <;> constructor <;> linarith

theorem clamp2y_nonneg (z : ℚ) : 0 ≤ clamp2y z := by
  unfold clamp2y
  split_ifs with h
  · exact le_refl 0
  · exact le_of_not_lt h

theorem move_phase_bounds (world : List (List String)) (inp : FrameInput) (q : PState)
    (hW : 2 ≤ rowLen world) :
    1 / 2 ≤ (move_phase world [] inp q).x ∧
    (move_phase world [] inp q).x ≤ ((rowLen world : Nat) : ℚ) - 3 / 2 ∧
    0 ≤ (move_phase world [] inp q).y := by
  have hWq : (2 : ℚ) ≤ ((rowLen world : Nat) : ℚ) := by exact_mod_cast hW
  simp only [move_phase, peer_push, List.foldl_nil]
  exact ⟨(clamp2x_bounds _ _ hWq).1, (clamp2x_bounds _ _ hWq).2, clamp2y_nonneg _⟩

/-- C9 amended: the implemented clamps use margins 0.5 from the left edge,
1.5 from the right edge, 0 from the top and 2.5 from the bottom (not the
claimed 0.4 / 1.0): after a tick with chat closed and no peers (peer
pushback can move `x` further), the final position satisfies
`1/2 ≤ x ≤ W - 3/2` and `0 ≤ y`. -/
theorem C9_clamp_amended (world : List (List String)) (inp : FrameInput) (p : PState)
    (rflag : Bool) (rx ry : ℚ) (hW : 2 ≤ rowLen world) (hchat : inp.chat_open = false) :
    1 / 2 ≤ (frame world [] rflag rx ry inp p).1.x ∧
    (frame world [] rflag rx ry inp p).1.x ≤ ((rowLen world : Nat) : ℚ) - 3 / 2 ∧
    0 ≤ (frame world [] rflag rx ry inp p).1.y := by
  have h := move_phase_bounds world inp
    (if rflag then { p with x := rx, y := ry, vx := 0, vy := 0 } else p) hW
  simpa [frame, hchat] using h

/-- Witness for C9's amended theorem in the all-air 4×4 world. -/
theorem C9_clamp_amended_witness :
    1 / 2 ≤ (frame world4 [] false 0 0 ⟨false, false, false, false, 0⟩
        ⟨9 / 20, 1, 0, 0, false, 0, 1⟩).1.x ∧
    (frame world4 [] false 0 0 ⟨false, false, false, false, 0⟩
        ⟨9 / 20, 1, 0, 0, false, 0, 1⟩).1.x ≤ ((rowLen world4 : Nat) : ℚ) - 3 / 2 ∧
    0 ≤ (frame world4 [] false 0 0 ⟨false, false, false, false, 0⟩
        ⟨9 / 20, 1, 0, 0, false, 0, 1⟩).1.y :=
  C9_clamp_amended world4 ⟨false, false, false, false, 0⟩ ⟨9 / 20, 1, 0, 0, false, 0, 1⟩
    false 0 0 (by norm_num [rowLen, world4]) rfl

/-- Modelled from the claim's words, for comparison only: clamping into
world bounds with half the box width (0.4 tile) as the horizontal margin
and half its height (1 tile) as the vertical margin. -/
def clamp_spec (W H x y : ℚ) : ℚ × ℚ :=
  (pyMax (2 / 5) (pyMin x (W - 2 / 5)), pyMax 0 (pyMin y (H - 2)))

/-- C9 counterexample: at `x = 0.45` (inside the claimed 0.4-margin bounds,
so the claimed clamp leaves it in place), with zero velocity, `Δt = 0`
and no collision, the implemented tick moves the player to `x = 0.5` —
the horizontal margin is 0.5, not 0.4. -/
theorem C9_clamp_counterexample :
    (clamp_spec 4 4 (9 / 20) 1).1 = 9 / 20 ∧
    (frame world4 [] false 0 0 ⟨false, false, false, false, 0⟩
        ⟨9 / 20, 1, 0, 0, false, 0, 1⟩).1.x = 1 / 2 ∧
    (9 / 20 : ℚ) ≠ 1 / 2 := by
  have hair : ∀ row ∈ world4, ∀ t ∈ row, t = "air" := by decide
  have hvp : vertical_pass world4 (1 / 2) 1 0 1 0 = ⟨1, 0, false⟩ :=
    vertical_pass_air world4 hair (1 / 2) 1 0 1 0
  have hrl : ((rowLen world4 : Nat) : ℚ) = 4 := by norm_num [rowLen, world4]
  have hlen : ((world4.length : Nat) : ℚ) = 4 := by norm_num [world4]
  refine ⟨by norm_num [clamp_spec, pyMax, pyMin], ?_, by norm_num⟩
  norm_num [frame, move_phase, input_vx, gravity_vy, jump_vy, horiz_x, clamp1x, clamp1y,
    clamp2x, clamp2y, peer_push, pyMax, pyMin, pyInt, hrl, hlen, hvp]

end Augu
